import Mathlib

/-!
Verification of the Amazon Bedrock chat adapters
(`integrations/amazon_bedrock/src/haystack_integrations/components/generators/amazon_bedrock/chat/adapters.py`).

Python dicts are modelled as insertion-ordered association lists with string
keys; Python values (str / int / bool / None / list / dict) as the inductive
`JValue`.  Fallible code paths (Python exceptions such as `KeyError` or
`TypeError`) are modelled with `Option` / `Except`.
-/

namespace Bedrock

/-- A JSON-like value, modelling the Python `Any` payloads that flow through
the adapters (dict / list / str / int / bool / None). -/
inductive JValue where
  | jnull
  | jbool (b : Bool)
  | jnum (n : Int)
  | jstr (s : String)
  | jarr (elems : List JValue)
  | jobj (fields : List (String × JValue))

/-- A Python dict with string keys, as an insertion-ordered association list. -/
abbrev JObj := List (String × JValue)

/-- Python `d.get(k)`: the value at the first occurrence of key `k`. -/
def jlookup : JObj → String → Option JValue
  | [], _ => none
  | (k', v) :: rest, k => if k' = k then some v else jlookup rest k

/-- Python `k in d`. -/
def jcontains (o : JObj) (k : String) : Bool :=
  (jlookup o k).isSome

/-- Python `d[k] = v`: replace the value at an existing key in place,
otherwise append the new entry at the end (insertion order). -/
def jset : JObj → String → JValue → JObj
  | [], k, v => [(k, v)]
  | (k', v') :: rest, k, v =>
    if k' = k then (k', v) :: rest else (k', v') :: jset rest k v

/-- Python `d.pop(k, default)` (discarding the popped value): drop the entry
with key `k`, if any. -/
def jerase (o : JObj) (k : String) : JObj :=
  o.filter fun p => p.1 != k

/-- The key list of a dict. -/
def jkeys (o : JObj) : List String := o.map Prod.fst

/-- Python dict union as used to build request bodies: the entries of `a`,
then the entries of `b` folded in with assignment semantics. -/
def mergeObjs (a b : JObj) : JObj :=
  b.foldl (fun acc p => jset acc p.1 p.2) a

/-- Python truthiness of a JSON-like value. -/
def JValue.truthy : JValue → Bool
  | .jnull => false
  | .jbool b => b
  | .jnum n => n != 0
  | .jstr s => s != ""
  | .jarr xs => !xs.isEmpty
  | .jobj fs => !fs.isEmpty

/-- Python `d.get(k) or default`. -/
def pyOr (o : Option JValue) (d : JValue) : JValue :=
  match o with
  | some v => if v.truthy then v else d
  | none => d

/-- Whether the optional value is exactly the string `s`
(Python `d.get(k) == "s"`). -/
def isStrV (o : Option JValue) (s : String) : Bool :=
  match o with
  | some (.jstr t) => t == s
  | _ => false

/-- Projection to a string value, where present. -/
def JValue.asStr : JValue → Option String
  | .jstr s => some s
  | _ => none

/-- Projection to an integer value, where present. -/
def JValue.asInt : JValue → Option Int
  | .jnum n => some n
  | _ => none

/-- Whether the value is a Python list. -/
def JValue.isArr : JValue → Bool
  | .jarr _ => true
  | _ => false

/-- Lexicographic strict comparison of two character lists, by code point
(an executable form of the list order underlying `String` comparison). -/
def listLtB : List Char → List Char → Bool
  | [], [] => false
  | [], _ :: _ => true
  | _ :: _, [] => false
  | a :: as, b :: bs =>
    if a < b then true else if b < a then false else listLtB as bs

/-- Executable strict comparison of two strings (Python `a < b`). -/
def strLtB (a b : String) : Bool := listLtB a.data b.data

/-- Executable comparison of two strings (Python `a <= b`). -/
def strLeB (a b : String) : Bool := !(strLtB b a)

/-- Projection of a whole list to strings, where every element is one. -/
def allStrs : List JValue → Option (List String)
  | [] => some []
  | v :: rest =>
    match v.asStr with
    | some s =>
      match allStrs rest with
      | some ss => some (s :: ss)
      | none => none
    | none => none

/-- Projection of a whole list to integers, where every element is one. -/
def allInts : List JValue → Option (List Int)
  | [] => some []
  | v :: rest =>
    match v.asInt with
    | some n =>
      match allInts rest with
      | some ns => some (n :: ns)
      | none => none
    | none => none

/-- Python `sorted(set(xs))` as used by `_update_params` (adapters.py line 82)
to merge two list-valued parameters.  Defined for homogeneous lists of
strings or of integers, the shapes Python's `sorted` accepts for the
adapters' list parameters (stop sequences are string lists); a
non-comparable mix raises `TypeError` in Python, modelled as `none`. -/
def pySortedSet (xs : List JValue) : Option (List JValue) :=
  match allStrs xs with
  | some ss =>
    some ((ss.dedup.insertionSort (fun a b => strLeB a b = true)).map JValue.jstr)
  | none =>
    match allInts xs with
    | some ns => some ((ns.dedup.insertionSort (· ≤ ·)).map JValue.jnum)
    | none => none

/-- The sorted, duplicate-free union of two string lists (the value
`sorted(set(xs + ys))` computes for string lists). -/
def sortedSetUnion (xs ys : List String) : List String :=
  ((xs ++ ys).dedup).insertionSort (fun a b => strLeB a b = true)

/-- The loop body of `BedrockModelChatAdapter._update_params` (adapters.py
lines 80-85) for one allowed key: when both the existing value and the new
value are lists, replace with the sorted duplicate-free union of the two,
otherwise overwrite.  `none` models Python raising `TypeError` inside
`sorted`. -/
def updateOne (target : JObj) (k : String) (v : JValue) : Option JObj :=
  match jlookup target k, v with
  | some (.jarr old), .jarr new =>
    match pySortedSet (old ++ new) with
    | some merged => some (jset target k (.jarr merged))
    | none => none
  | _, _ => some (jset target k v)

/-- Model of `BedrockModelChatAdapter._update_params` (adapters.py lines 67-85): fold
the entries of `updates` into `target`.  A key outside `allowed` is logged
and skipped; an allowed key is folded in by `updateOne`. -/
def updateParams : JObj → JObj → List String → Option JObj
  | target, [], _ => some target
  | target, (k, v) :: rest, allowed =>
    if k ∈ allowed then
      match updateOne target k v with
      | some target' => updateParams target' rest allowed
      | none => none
    else updateParams target rest allowed

/-- Model of `BedrockModelChatAdapter._get_params` (adapters.py lines 87-106): start
from a copy of the defaults, fold in the adapter-level
`generation_kwargs`, then the per-call `inference_kwargs`. -/
def getParams (generationKwargs inferenceKwargs defaultParams : JObj)
    (allowed : List String) : Option JObj :=
  match updateParams defaultParams generationKwargs allowed with
  | some kwargs => updateParams kwargs inferenceKwargs allowed
  | none => none

/-- The role enumeration `haystack.dataclasses.ChatRole` (closed). -/
inductive ChatRole where
  | system
  | user
  | assistant
deriving DecidableEq

/-- The wire value of a role (`ChatRole.value`). -/
def ChatRole.value : ChatRole → String
  | .system => "system"
  | .user => "user"
  | .assistant => "assistant"

/-- The message type `haystack.dataclasses.ChatMessage` (the fields the adapters use). -/
structure ChatMessage where
  role : ChatRole
  content : String
  meta : JObj

/-- The constructor `ChatMessage.from_assistant`. -/
def ChatMessage.fromAssistant (content : String) (meta : JObj) : ChatMessage :=
  ⟨.assistant, content, meta⟩

/-- The streaming unit `haystack.dataclasses.StreamingChunk`. -/
structure StreamingChunk where
  content : String
  meta : JObj

/-- The record returned by `check_prompt`. -/
structure ResizeInfo where
  resized_prompt : String
  prompt_length : Nat
  new_prompt_length : Nat
  max_length : Nat
  model_max_length : Nat

/-- The tokenizer capability plus the token budget held by a prompt handler
(spec section 3, "PromptHandler state"); the tokenizer itself is an external
collaborator (spec section 6). -/
structure PromptHandler where
  encode : String → List Nat
  decode : List Nat → String
  model_max_length : Nat
  max_length : Nat

/-- Modelled from the spec: `DefaultPromptHandler.__call__` (module
`haystack_integrations/components/generators/amazon_bedrock/handlers.py`,
which is not under `src/`), per spec section 4.6: encode the prompt, set
`new_prompt_length = min(prompt_length, model_max_length - max_length)`,
truncate the id sequence to that length if shorter and decode back,
otherwise keep the prompt unchanged. -/
def checkPrompt (h : PromptHandler) (prompt : String) : ResizeInfo :=
  let ids := h.encode prompt
  let pl := ids.length
  let npl := min pl (h.model_max_length - h.max_length)
  { resized_prompt := if npl < pl then h.decode (ids.take npl) else prompt
    prompt_length := pl
    new_prompt_length := npl
    max_length := h.max_length
    model_max_length := h.model_max_length }

/-- Model of `BedrockModelChatAdapter._ensure_token_limit` (adapters.py lines
108-125): return the resized prompt (the warning log is side-effect only). -/
def ensureTokenLimit (h : PromptHandler) (prompt : String) : String :=
  (checkPrompt h prompt).resized_prompt

/-- Python `str.lstrip()` (over the ASCII whitespace Lean's
`Char.isWhitespace` recognises). -/
def pyLstrip (s : String) : String :=
  ⟨s.data.dropWhile Char.isWhitespace⟩

/-- Python `str.strip()`, as used by the chat templates' `content.strip()`
(over the ASCII whitespace Lean's `Char.isWhitespace` recognises). -/
def pyStrip (s : String) : String :=
  ⟨((s.data.dropWhile Char.isWhitespace).reverse.dropWhile Char.isWhitespace).reverse⟩

/-- The event loop of `BedrockModelChatAdapter.get_stream_responses`
(adapters.py lines 57-63): events without a truthy `chunk` entry are
skipped; for each payload-carrying event the built `StreamingChunk` is
appended (and handed to the callback) and the decoded payload becomes the
last decoded chunk.  Events are modelled post-decoding: `some payload` for
a fragment whose `chunk.bytes` decodes to the JSON object `payload`,
`none` for a fragment without one. -/
def streamFold (build : JObj → StreamingChunk) :
    List (Option JObj) → List StreamingChunk × JObj → List StreamingChunk × JObj
  | [], acc => acc
  | e :: rest, (chunks, last) =>
    match e with
    | some payload => streamFold build rest (chunks ++ [build payload], payload)
    | none => streamFold build rest (chunks, last)

/-- Model of `BedrockModelChatAdapter.get_stream_responses` (adapters.py lines
52-65).  Returns the final message list together with the ordered list of
`StreamingChunk`s passed to `streaming_callback` (the callback is invoked
synchronously exactly once per payload-carrying fragment, with exactly the
chunks of that list, in that order). -/
def getStreamResponses (build : JObj → StreamingChunk) (stream : List (Option JObj)) :
    List ChatMessage × List StreamingChunk :=
  let folded := streamFold build stream ([], [])
  ([ChatMessage.fromAssistant
      (pyLstrip (String.join (folded.1.map StreamingChunk.content))) folded.2],
   folded.1)

/-- The state of one constructed adapter: the (post-`__init__`)
`generation_kwargs`, the `truncate` flag and the prompt handler built in
`__init__` (the tokenizer is an external collaborator, spec section 6). -/
structure AdapterCfg where
  generationKwargs : JObj
  truncate : Bool
  handler : PromptHandler

/-- Escape of one character inside a Python `json.dumps` string. -/
def jsonEscapeChar (c : Char) : String :=
  if c = '"' then "\\\""
  else if c = '\\' then "\\\\"
  else if c = '\n' then "\\n"
  else if c = '\t' then "\\t"
  else if c = '\r' then "\\r"
  else String.singleton c

/-- Escape of a string inside Python `json.dumps` output. -/
def jsonEscape (s : String) : String :=
  s.data.foldl (fun acc c => acc ++ jsonEscapeChar c) ""

mutual

/-- Python `json.dumps` with its default separators, as used by
`AnthropicClaudeChatAdapter._extract_messages_from_response`
(adapters.py line 264) to serialize a `tool_use` content block. -/
def JValue.dumps : JValue → String
  | .jnull => "null"
  | .jbool true => "true"
  | .jbool false => "false"
  | .jnum n => toString n
  | .jstr s => "\"" ++ jsonEscape s ++ "\""
  | .jarr xs => "[" ++ JValue.dumpsElems xs ++ "]"
  | .jobj fs => "\x7b" ++ JValue.dumpsFields fs ++ "\x7d"

/-- Comma-separated serialization of array elements. -/
def JValue.dumpsElems : List JValue → String
  | [] => ""
  | [x] => JValue.dumps x
  | x :: y :: rest => JValue.dumps x ++ ", " ++ JValue.dumpsElems (y :: rest)

/-- Comma-separated serialization of object fields. -/
def JValue.dumpsFields : List (String × JValue) → String
  | [] => ""
  | [(k, v)] => "\"" ++ jsonEscape k ++ "\": " ++ JValue.dumps v
  | (k, v) :: f :: rest =>
    "\"" ++ jsonEscape k ++ "\": " ++ JValue.dumps v ++ ", " ++
      JValue.dumpsFields (f :: rest)

end

/-- Model of `AnthropicClaudeChatAdapter.ALLOWED_PARAMS` (adapters.py lines 161-171). -/
def ANTHROPIC_ALLOWED : List String :=
  ["anthropic_version", "max_tokens", "stop_sequences", "temperature",
   "top_p", "top_k", "system", "tools", "tool_choice"]

/-- Model of `AnthropicClaudeChatAdapter._to_anthropic_message` (adapters.py lines
285-291). -/
def toAnthropicMessage (m : ChatMessage) : JValue :=
  .jobj [("content", .jarr [.jobj [("type", .jstr "text"), ("text", .jstr m.content)]]),
         ("role", .jstr m.role.value)]

/-- The inner mutation `content["text"] = self._ensure_token_limit(content["text"])`
of the truncation loop (adapters.py line 239), applied to one content block. -/
def truncateTextField (ensure : String → String) : JValue → JValue
  | .jobj fields =>
    .jobj (fields.map fun p =>
      match p with
      | ("text", .jstr s) => ("text", .jstr (ensure s))
      | q => q)
  | v => v

/-- The inner loop `for content in message["content"]` of the truncation
loop (adapters.py lines 238-239), applied to one prepared message. -/
def truncateContents (ensure : String → String) : JValue → JValue
  | .jobj fields =>
    .jobj (fields.map fun p =>
      match p with
      | ("content", .jarr blocks) => ("content", .jarr (blocks.map (truncateTextField ensure)))
      | q => q)
  | v => v

/-- The outer loop `for message in body["messages"]` of the truncation loop
(adapters.py lines 237-239), applied to one body entry. -/
def truncateBodyEntry (ensure : String → String) (p : String × JValue) : String × JValue :=
  if p.1 = "messages" then
    match p.2 with
    | .jarr msgs => (p.1, .jarr (msgs.map (truncateContents ensure)))
    | v => (p.1, v)
  else p

/-- Model of `AnthropicClaudeChatAdapter.prepare_chat_messages` (adapters.py lines
221-240): an optional leading SYSTEM message becomes the top-level
`system` field (when its content is truthy); only USER and ASSISTANT
messages populate the `messages` array; when `truncate` is set every
prepared text block is passed through `_ensure_token_limit`. -/
def anthropicPrepareChatMessages (cfg : AdapterCfg) (messages : List ChatMessage) : JObj :=
  let sys : Option String :=
    match messages with
    | m :: _ => if m.role = .system then some m.content else none
    | [] => none
  let body : JObj :=
    jset [] "messages"
      (.jarr ((messages.filter fun m => m.role == .user || m.role == .assistant).map
        toAnthropicMessage))
  let body :=
    match sys with
    | some s => if s == "" then body else jset body "system" (.jstr s)
    | none => body
  if cfg.truncate then body.map (truncateBodyEntry (ensureTokenLimit cfg.handler))
  else body

/-- Python `d.get(k, [])` followed by a use as a list (`+`): absent means
the empty list, a non-list value raises `TypeError`. -/
def getListD (o : JObj) (k : String) : Except String (List JValue) :=
  match jlookup o k with
  | none => .ok []
  | some (.jarr xs) => .ok xs
  | some _ => .error "TypeError: can only concatenate list"

/-- Model of `AnthropicClaudeChatAdapter.prepare_body` (adapters.py lines 198-219):
default `anthropic_version` and `max_tokens`, `stop_words` merged into
`stop_sequences`, the `stream` kwarg dropped, parameters merged through
`_get_params`, and the body assembled from the prepared chat messages plus
the merged parameters. -/
def anthropicPrepareBody (cfg : AdapterCfg) (messages : List ChatMessage)
    (inferenceKwargs : JObj) : Except String JObj :=
  let defaultParams : JObj :=
    [("anthropic_version",
        pyOr (jlookup cfg.generationKwargs "anthropic_version") (.jstr "bedrock-2023-05-31")),
     ("max_tokens", pyOr (jlookup cfg.generationKwargs "max_tokens") (.jnum 512))]
  match getListD inferenceKwargs "stop_sequences", getListD inferenceKwargs "stop_words" with
  | .ok seqs, .ok words =>
    let ik := jerase inferenceKwargs "stop_words"
    let stopSeqs := seqs ++ words
    let ik := if stopSeqs.isEmpty then ik else jset ik "stop_sequences" (.jarr stopSeqs)
    let ik := jerase ik "stream"
    match getParams cfg.generationKwargs ik defaultParams ANTHROPIC_ALLOWED with
    | some params => .ok (mergeObjs (anthropicPrepareChatMessages cfg messages) params)
    | none => .error "TypeError: unorderable types in sorted()"
  | .error e, _ => .error e
  | _, .error e => .error e

/-- The meta dict of an extracted Anthropic message: every top-level
response field except `type`, `content` and `role` (adapters.py lines 263
and 269). -/
def anthropicMeta (rb : JObj) : JObj :=
  rb.filter fun p => !(p.1 == "type" || p.1 == "content" || p.1 == "role")

/-- The `tool_use` arm of the content loop in
`AnthropicClaudeChatAdapter._extract_messages_from_response` (adapters.py
lines 261-265): one message per `tool_use` content block, its content the
JSON serialization of the block.  A non-dict block makes Python's
`content.get` raise, modelled as an error. -/
def collectToolUse (meta : JObj) : List JValue → Except String (List ChatMessage)
  | [] => .ok []
  | .jobj b :: rest =>
    if isStrV (jlookup b "type") "tool_use" then
      match collectToolUse meta rest with
      | .ok ms => .ok (ChatMessage.fromAssistant (JValue.dumps (.jobj b)) meta :: ms)
      | .error e => .error e
    else collectToolUse meta rest
  | _ :: _ => .error "AttributeError: content block is not a dict"

/-- The text arm of the content loop in
`AnthropicClaudeChatAdapter._extract_messages_from_response` (adapters.py
lines 266-270): one message per `text` content block.  A `text` block
without a string `text` field makes Python raise (`KeyError`) or produce a
non-string content, modelled as an error. -/
def collectText (meta : JObj) : List JValue → Except String (List ChatMessage)
  | [] => .ok []
  | .jobj b :: rest =>
    if isStrV (jlookup b "type") "text" then
      match jlookup b "text" with
      | some (.jstr s) =>
        match collectText meta rest with
        | .ok ms => .ok (ChatMessage.fromAssistant s meta :: ms)
        | .error e => .error e
      | some _ => .error "TypeError: text is not a string"
      | none => .error "KeyError: text"
    else collectText meta rest
  | _ :: _ => .error "AttributeError: content block is not a dict"

/-- Model of `AnthropicClaudeChatAdapter._extract_messages_from_response`
(adapters.py lines 251-272).  A response whose `type` is not `"message"`
yields the empty list; otherwise `response_body["content"]` is read (a
`KeyError` when absent, a `TypeError` when not a list) and the `tool_use`
or text arm collects the messages depending on `stop_reason`. -/
def anthropicExtract (rb : JObj) : Except String (List ChatMessage) :=
  if isStrV (jlookup rb "type") "message" then
    match jlookup rb "content" with
    | some (.jarr blocks) =>
      if isStrV (jlookup rb "stop_reason") "tool_use" then
        collectToolUse (anthropicMeta rb) blocks
      else collectText (anthropicMeta rb) blocks
    | some _ => .error "TypeError: content is not a list"
    | none => .error "KeyError: content"
  else .ok []

/-- Model of `AnthropicClaudeChatAdapter._build_streaming_chunk` (adapters.py lines
274-283): a `content_block_delta` event whose delta type is `text_delta`
carries the delta's text, every other event an empty content; the meta is
always the raw decoded event. -/
def anthropicBuildChunk (chunk : JObj) : StreamingChunk :=
  let delta : JObj :=
    match jlookup chunk "delta" with
    | some (.jobj d) => d
    | _ => []
  if isStrV (jlookup chunk "type") "content_block_delta"
      && isStrV (jlookup delta "type") "text_delta" then
    { content :=
        match jlookup delta "text" with
        | some (.jstr s) => s
        | _ => ""
      meta := chunk }
  else { content := "", meta := chunk }

/-- Model of `MistralChatAdapter._extract_messages_from_response` (adapters.py lines
426-438) applied to one entry of `outputs`: meta is every field except
`text`; a missing `text` raises `KeyError`. -/
def mistralExtractLoop : List JValue → Except String (List ChatMessage)
  | [] => .ok []
  | .jobj r :: rest =>
    let meta := r.filter fun p => p.1 != "text"
    match jlookup r "text" with
    | some (.jstr s) =>
      match mistralExtractLoop rest with
      | .ok ms => .ok (ChatMessage.fromAssistant s meta :: ms)
      | .error e => .error e
    | some _ => .error "TypeError: text is not a string"
    | none => .error "KeyError: text"
  | _ :: _ => .error "AttributeError: output entry is not a dict"

/-- Model of `MistralChatAdapter._extract_messages_from_response` (adapters.py lines
426-438): `response_body.get("outputs", [])` iterated into one message per
entry. -/
def mistralExtract (rb : JObj) : Except String (List ChatMessage) :=
  match jlookup rb "outputs" with
  | none => .ok []
  | some (.jarr outs) => mistralExtractLoop outs
  | some _ => .error "TypeError: outputs is not a list"

/-- Model of `MetaLlama2ChatAdapter._extract_messages_from_response` (adapters.py
lines 551-560): exactly one message from `response_body["generation"]`
(raising `KeyError` when the field is absent), meta every other top-level
field. -/
def metaLlama2Extract (rb : JObj) : Except String (List ChatMessage) :=
  match jlookup rb "generation" with
  | some (.jstr s) =>
    .ok [ChatMessage.fromAssistant s (rb.filter fun p => p.1 != "generation")]
  | some _ => .error "TypeError: generation is not a string"
  | none => .error "KeyError: generation"

/-- The body pieces a family chat template emits: how a leading system
message joins the first turn's content, how a user / assistant turn is
wrapped, and the token emitted before the loop. -/
structure ChatTemplate where
  joinSys : String → String → String
  userPiece : String → String
  assistantPiece : String → String
  bosToken : String

/-- The exception message of the templates' `raise_exception` calls
(adapters.py lines 310 and 471). -/
def alternationMsg : String :=
  "Conversation roles must alternate user/assistant/user/assistant/..."

/-- Role at position `i` required by the templates' alternation check:
user at even positions, assistant at odd ones. -/
def expectedRole (i : Nat) : ChatRole :=
  if i % 2 = 0 then .user else .assistant

/-- The per-message loop shared by the Mistral and Meta-Llama2 Jinja chat
templates (adapters.py lines 308-322 and 469-483): raise when
`(role == 'user') != (index even)`; join an optional system message into
the content at index 0; emit the user / assistant piece (other roles emit
nothing). -/
def renderLoop (t : ChatTemplate) (sys : Option String) :
    List (ChatRole × String) → Nat → Except String String
  | [], _ => .ok ""
  | (r, c) :: rest, i =>
    if (r == ChatRole.user) != (i % 2 == 0) then .error alternationMsg
    else
      let content :=
        match sys with
        | some s => if i == 0 then t.joinSys s c else c
        | none => c
      let piece :=
        if r == ChatRole.user then t.userPiece content
        else if r == ChatRole.assistant then t.assistantPiece content
        else ""
      match renderLoop t sys rest (i + 1) with
      | .error e => .error e
      | .ok tail => .ok (piece ++ tail)

/-- The `loop_messages` of the templates: everything after an optional
leading system message (adapters.py lines 300-306 and 462-468). -/
def loopMessages : List (ChatRole × String) → List (ChatRole × String)
  | (ChatRole.system, _) :: rest => rest
  | ms => ms

/-- The `system_message` of the templates: the content of an optional
leading system message. -/
def systemMessage : List (ChatRole × String) → Option String
  | (ChatRole.system, s) :: _ => some s
  | _ => none

/-- Model of `tokenizer.apply_chat_template(conversation, tokenize=False,
chat_template=...)` for the two templates above: split off an optional
leading system message, render the loop, and prepend the template's
loop-level bos token. -/
def applyChatTemplate (t : ChatTemplate) (ms : List (ChatRole × String)) :
    Except String String :=
  match renderLoop t (systemMessage ms) (loopMessages ms) 0 with
  | .error e => .error e
  | .ok s => .ok (t.bosToken ++ s)

/-- The Mistral chat template (adapters.py lines 299-324): bos once before
the loop, user turns wrapped in `[INST] ... [/INST]`, assistant turns
stripped and suffixed with eos, a leading system message joined to the
first turn with a newline. -/
def mistralTemplate : ChatTemplate where
  joinSys := fun s c => s ++ "\n" ++ c
  userPiece := fun c => "[INST] " ++ pyStrip c ++ " [/INST]"
  assistantPiece := fun c => pyStrip c ++ "</s>"
  bosToken := "<s>"

/-- The Meta-Llama2 chat template (adapters.py lines 461-484): bos before
each user turn, a leading system message wrapped in `<<SYS>>` delimiters,
assistant turns padded with spaces and suffixed with eos. -/
def metaLlama2Template : ChatTemplate where
  joinSys := fun s c => "<<SYS>>\n" ++ s ++ "\n<</SYS>>\n\n" ++ c
  userPiece := fun c => "<s>[INST] " ++ pyStrip c ++ " [/INST]"
  assistantPiece := fun c => " " ++ pyStrip c ++ " </s>"
  bosToken := ""

/-- Model of `_convert_message_to_openai_format` restricted to what the templates
read: the role and the content. -/
def toRoleContent (m : ChatMessage) : ChatRole × String :=
  (m.role, m.content)

/-- Model of `MistralChatAdapter.ALLOWED_PARAMS` (adapters.py lines 331-337). -/
def MISTRAL_ALLOWED : List String :=
  ["max_tokens", "safe_prompt", "random_seed", "temperature", "top_p"]

/-- Model of `MistralChatAdapter.prepare_chat_messages` (adapters.py lines 397-415):
apply the Mistral chat template, then truncate when enabled. -/
def mistralPrepareChatMessages (cfg : AdapterCfg) (messages : List ChatMessage) :
    Except String String :=
  match applyChatTemplate mistralTemplate (messages.map toRoleContent) with
  | .error e => .error e
  | .ok p => .ok (if cfg.truncate then ensureTokenLimit cfg.handler p else p)

/-- Model of `MistralChatAdapter.prepare_body` (adapters.py lines 374-395): default
`max_tokens`, `stop_words` renamed to `stop`, the `stream` kwarg dropped,
parameters merged through `_get_params`, and the body assembled as
`prompt` plus the merged parameters. -/
def mistralPrepareBody (cfg : AdapterCfg) (messages : List ChatMessage)
    (inferenceKwargs : JObj) : Except String JObj :=
  let defaultParams : JObj :=
    [("max_tokens", pyOr (jlookup cfg.generationKwargs "max_tokens") (.jnum 512))]
  let stopWords := (jlookup inferenceKwargs "stop_words").getD (.jarr [])
  let ik := jerase inferenceKwargs "stop_words"
  let ik := if stopWords.truthy then jset ik "stop" stopWords else ik
  let ik := jerase ik "stream"
  match getParams cfg.generationKwargs ik defaultParams MISTRAL_ALLOWED with
  | some params =>
    match mistralPrepareChatMessages cfg messages with
    | .ok prompt => .ok (mergeObjs [("prompt", .jstr prompt)] params)
    | .error e => .error e
  | none => .error "TypeError: unorderable types in sorted()"

/-- Model of `MetaLlama2ChatAdapter.ALLOWED_PARAMS` (adapters.py line 459). -/
def META_LLAMA2_ALLOWED : List String := ["max_gen_len", "temperature", "top_p"]

/-- Model of `MetaLlama2ChatAdapter.prepare_chat_messages` (adapters.py lines
526-539): apply the Meta-Llama2 chat template, then truncate when
enabled. -/
def metaLlama2PrepareChatMessages (cfg : AdapterCfg) (messages : List ChatMessage) :
    Except String String :=
  match applyChatTemplate metaLlama2Template (messages.map toRoleContent) with
  | .error e => .error e
  | .ok p => .ok (if cfg.truncate then ensureTokenLimit cfg.handler p else p)

/-- Model of `MetaLlama2ChatAdapter.prepare_body` (adapters.py lines 512-524):
default `max_gen_len`, no stop-word handling, parameters merged through
`_get_params`, and the body assembled as `prompt` plus the merged
parameters. -/
def metaLlama2PrepareBody (cfg : AdapterCfg) (messages : List ChatMessage)
    (inferenceKwargs : JObj) : Except String JObj :=
  let defaultParams : JObj :=
    [("max_gen_len", pyOr (jlookup cfg.generationKwargs "max_gen_len") (.jnum 512))]
  match getParams cfg.generationKwargs inferenceKwargs defaultParams META_LLAMA2_ALLOWED with
  | some params =>
    match metaLlama2PrepareChatMessages cfg messages with
    | .ok prompt => .ok (mergeObjs [("prompt", .jstr prompt)] params)
    | .error e => .error e
  | none => .error "TypeError: unorderable types in sorted()"

/-- Strict user/assistant alternation starting with user, the invariant the
templates enforce on the loop messages. -/
def alternatesUserFirst (ms : List (ChatRole × String)) : Prop :=
  ∀ i, (h : i < ms.length) → (ms.get ⟨i, h⟩).1 = expectedRole i

/-- A demonstration tokenizer: one token per character. -/
def demoHandler : PromptHandler where
  encode := fun s => s.data.map Char.toNat
  decode := fun ids => ⟨ids.map Char.ofNat⟩
  model_max_length := 5
  max_length := 3

/-- An adapter constructed with empty generation kwargs and truncation
disabled. -/
def demoCfg : AdapterCfg where
  generationKwargs := []
  truncate := false
  handler := demoHandler

/-- First decoded fragment of the three-fragment demonstration stream: a
payload without text. -/
def demoFrag1 : JObj := [("type", .jstr "message_start")]

/-- Second decoded fragment of the demonstration stream: a text delta
carrying `"foo"`. -/
def demoFrag2 : JObj :=
  [("type", .jstr "content_block_delta"),
   ("delta", .jobj [("type", .jstr "text_delta"), ("text", .jstr "foo")])]

/-- Third decoded fragment of the demonstration stream: a payload without
text. -/
def demoFrag3 : JObj := [("type", .jstr "message_stop")]

/-- Two consecutive user messages: the non-alternating list of the claim. -/
def demoUserUser : List ChatMessage :=
  [⟨.user, "a", []⟩, ⟨.user, "b", []⟩]

/-- A user message followed by a system message: a list that violates
user/assistant alternation without tripping the templates' check. -/
def demoUserSystem : List ChatMessage :=
  [⟨.user, "a", []⟩, ⟨.system, "s", []⟩]

/-- A `tool_use` content block. -/
def demoToolBlock : JObj := [("type", .jstr "tool_use"), ("id", .jstr "t1")]

/-- An Anthropic response of type `message` stopped for `tool_use`, with
exactly one `tool_use` content block. -/
def demoToolResponse : JObj :=
  [("type", .jstr "message"), ("stop_reason", .jstr "tool_use"),
   ("content", .jarr [.jobj demoToolBlock])]

/-- A message list with a leading system message, a user message and a
second system message at the end. -/
def demoSystemMsgs : List ChatMessage :=
  [⟨.system, "be brief", []⟩, ⟨.user, "u", []⟩, ⟨.system, "late", []⟩]

/-- The value of the `messages` array built by
`AnthropicClaudeChatAdapter.prepare_chat_messages`: the USER / ASSISTANT
messages in order, converted, with every text passed through
`_ensure_token_limit` when truncation is on. -/
def anthMsgsArr (cfg : AdapterCfg) (messages : List ChatMessage) : List JValue :=
  let base := (messages.filter fun m => m.role == .user || m.role == .assistant).map
    toAnthropicMessage
  if cfg.truncate then base.map (truncateContents (ensureTokenLimit cfg.handler)) else base

/-! ## Lemmas about the dict model -/

theorem jlookup_jset_self (o : JObj) (k : String) (v : JValue) :
    jlookup (jset o k v) k = some v := by
  induction o with
  | nil => simp [jset, jlookup]
  | cons p rest ih =>
    obtain ⟨k', v'⟩ := p
    by_cases h : k' = k
    · simp [jset, h, jlookup]
    · simp [jset, h, jlookup, ih]

theorem jlookup_jset_ne (o : JObj) (k : String) (v : JValue) (k'' : String)
    (h : k'' ≠ k) : jlookup (jset o k v) k'' = jlookup o k'' := by
  have h' : ¬ k = k'' := fun hk => h hk.symm
  induction o with
  | nil => simp [jset, jlookup, h']
  | cons p rest ih =>
    obtain ⟨k', v'⟩ := p
    by_cases hk : k' = k
    · subst hk
      simp [jset, jlookup, h']
    · by_cases hk'' : k' = k''
      · subst hk''
        simp [jset, hk, jlookup]
      · simp [jset, hk, jlookup, hk'', ih]

theorem jkeys_jset (o : JObj) (k : String) (v : JValue) :
    jkeys (jset o k v) = jkeys o ∨ jkeys (jset o k v) = jkeys o ++ [k] := by
  induction o with
  | nil => right; rfl
  | cons p rest ih =>
    obtain ⟨k', v'⟩ := p
    by_cases hk : k' = k
    · left; simp [jset, hk, jkeys]
    · rcases ih with h | h
      · left; simp [jset, hk, jkeys]; simpa [jkeys] using h
      · right; simp [jset, hk, jkeys]; simpa [jkeys] using h

theorem mem_jkeys_jset (o : JObj) (k : String) (v : JValue) (k'' : String)
    (h : k'' ∈ jkeys (jset o k v)) : k'' ∈ jkeys o ∨ k'' = k := by
  rcases jkeys_jset o k v with he | he
  · rw [he] at h; exact Or.inl h
  · rw [he] at h
    rcases List.mem_append.mp h with h' | h'
    · exact Or.inl h'
    · exact Or.inr (List.mem_singleton.mp h')

/-! ## Lemmas about the stream aggregation loop -/

theorem streamFold_eq (build : JObj → StreamingChunk) :
    ∀ (s : List (Option JObj)) (cs : List StreamingChunk) (l : JObj),
      streamFold build s (cs, l) =
        (cs ++ (s.filterMap id).map build, (s.filterMap id).getLastD l) := by
  intro s
  induction s with
  | nil => intro cs l; simp [streamFold]
  | cons e rest ih =>
    intro cs l
    cases e with
    | none =>
      show streamFold build rest (cs, l) = _
      rw [ih]
      simp
    | some p =>
      show streamFold build rest (cs ++ [build p], p) = _
      rw [ih]
      have hf : (some p :: rest).filterMap id = p :: rest.filterMap id := by simp
      rw [hf]
      congr 1
      · simp
      · rw [List.getLastD_cons]

/-! ## Lemmas about the sorted duplicate-free union -/

theorem listLtB_iff_lex (as bs : List Char) :
    listLtB as bs = true ↔ List.Lex (· < ·) as bs := by
  induction as generalizing bs with
  | nil =>
    cases bs with
    | nil => simp [listLtB]
    | cons b bs => simp [listLtB]; exact List.Lex.nil
  | cons a as ih =>
    cases bs with
    | nil => simp [listLtB]
    | cons b bs =>
      by_cases hab : a < b
      · simp only [listLtB, hab, if_true, true_iff]
        exact List.Lex.rel hab
      · by_cases hba : b < a
        · simp only [listLtB, hab, if_false, hba, if_true]
          constructor
          · intro h; exact absurd h (by simp)
          · intro h
            cases h with
            | cons h => exact absurd hba (lt_irrefl _)
            | rel h => exact absurd hba (asymm h)
        · have heq : a = b := le_antisymm (le_of_not_lt hba) (le_of_not_lt hab)
          subst heq
          simp only [listLtB, lt_irrefl, if_false]
          rw [ih bs]
          constructor
          · intro h; exact List.Lex.cons h
          · intro h
            cases h with
            | cons h => exact h
            | rel h => exact absurd h (lt_irrefl _)

theorem strLeB_iff_le (a b : String) : strLeB a b = true ↔ a ≤ b := by
  have hlt : strLtB b a = true ↔ b < a := by
    rw [String.lt_iff_toList_lt]
    constructor
    · intro h
      exact (listLtB_iff_lex b.data a.data).mp h
    · intro h
      exact (listLtB_iff_lex b.data a.data).mpr h
  constructor
  · intro h
    refine le_of_not_lt fun hba => ?_
    have : strLtB b a = true := hlt.mpr hba
    simp [strLeB, this] at h
  · intro h
    have : ¬ strLtB b a = true := fun hc => absurd (hlt.mp hc) (not_lt_of_le h)
    simp [strLeB, Bool.not_eq_true] at this ⊢
    exact this

theorem sortedSetUnion_pairwise (xs ys : List String) :
    (sortedSetUnion xs ys).Pairwise (· < ·) := by
  haveI htot : IsTotal String (fun a b => strLeB a b = true) :=
    ⟨fun a b => by
      rcases le_total a b with h | h
      · exact Or.inl ((strLeB_iff_le a b).mpr h)
      · exact Or.inr ((strLeB_iff_le b a).mpr h)⟩
  haveI htrans : IsTrans String (fun a b => strLeB a b = true) :=
    ⟨fun a b c hab hbc => (strLeB_iff_le a c).mpr
      (le_trans ((strLeB_iff_le a b).mp hab) ((strLeB_iff_le b c).mp hbc))⟩
  have hs : (sortedSetUnion xs ys).Sorted (fun a b => strLeB a b = true) :=
    List.sorted_insertionSort _ _
  have hle : (sortedSetUnion xs ys).Sorted (· ≤ ·) :=
    hs.imp fun h => (strLeB_iff_le _ _).mp h
  have hn : (sortedSetUnion xs ys).Nodup :=
    (List.perm_insertionSort _ _).nodup_iff.mpr (List.nodup_dedup _)
  exact hle.lt_of_le hn

theorem sortedSetUnion_mem (xs ys : List String) (s : String) :
    s ∈ sortedSetUnion xs ys ↔ s ∈ xs ∨ s ∈ ys := by
  simp [sortedSetUnion]

theorem allStrs_map_jstr (l : List String) :
    allStrs (l.map JValue.jstr) = some l := by
  induction l with
  | nil => rfl
  | cons x xs ih => simp [allStrs, JValue.asStr, ih]

theorem pySortedSet_strings (xs ys : List String) :
    pySortedSet (xs.map JValue.jstr ++ ys.map JValue.jstr) =
      some ((sortedSetUnion xs ys).map JValue.jstr) := by
  unfold pySortedSet sortedSetUnion
  rw [← List.map_append, allStrs_map_jstr]

/-! ## Lemmas about parameter merging -/

theorem updateOne_shape (t : JObj) (k : String) (v : JValue) (t' : JObj)
    (h : updateOne t k v = some t') : ∃ w, t' = jset t k w := by
  unfold updateOne at h
  split at h
  · split at h
    · exact ⟨_, (Option.some.injEq _ _ ▸ h).symm⟩
    · exact absurd h (by simp)
  · exact ⟨_, (Option.some.injEq _ _ ▸ h).symm⟩

theorem updateOne_not_both (t : JObj) (k : String) (v : JValue)
    (h : ∀ old new, jlookup t k = some (.jarr old) → v = .jarr new → False) :
    updateOne t k v = some (jset t k v) := by
  unfold updateOne
  split
  · next old new hl => exact (h old new hl rfl).elim
  · rfl

theorem updateOne_both (t : JObj) (k : String) (old new merged : List JValue)
    (hl : jlookup t k = some (.jarr old))
    (hm : pySortedSet (old ++ new) = some merged) :
    updateOne t k (.jarr new) = some (jset t k (.jarr merged)) := by
  unfold updateOne
  rw [hl]
  show (match pySortedSet (old ++ new) with
    | some merged => some (jset t k (JValue.jarr merged))
    | none => none) = some (jset t k (JValue.jarr merged))
  rw [hm]

theorem updateParams_keys :
    ∀ (updates target : JObj) (allowed : List String) (d : JObj),
      updateParams target updates allowed = some d →
      ∀ k, k ∈ jkeys d → k ∈ jkeys target ∨ k ∈ allowed := by
  intro updates
  induction updates with
  | nil =>
    intro target allowed d h k hk
    simp only [updateParams, Option.some.injEq] at h
    exact Or.inl (h ▸ hk)
  | cons p rest ih =>
    intro target allowed d h k hk
    obtain ⟨k', v'⟩ := p
    by_cases ha : k' ∈ allowed
    · simp only [updateParams, ha, if_true] at h
      split at h
      · next t' ht' =>
        obtain ⟨w, rfl⟩ := updateOne_shape target k' v' t' ht'
        rcases ih _ allowed d h k hk with h' | h'
        · rcases mem_jkeys_jset target k' w k h' with h'' | h''
          · exact Or.inl h''
          · exact Or.inr (h'' ▸ ha)
        · exact Or.inr h'
      · exact absurd h (by simp)
    · simp only [updateParams, ha, if_false] at h
      exact ih target allowed d h k hk

theorem updateParams_lookup_preserved :
    ∀ (updates target : JObj) (allowed : List String) (d : JObj) (k : String),
      (k ∉ jkeys updates ∨ k ∉ allowed) →
      updateParams target updates allowed = some d →
      jlookup d k = jlookup target k := by
  intro updates
  induction updates with
  | nil =>
    intro target allowed d k _ h
    simp only [updateParams, Option.some.injEq] at h
    rw [h]
  | cons p rest ih =>
    intro target allowed d k hout h
    obtain ⟨k', v'⟩ := p
    have htail : k ∉ jkeys rest ∨ k ∉ allowed := by
      rcases hout with h' | h'
      · exact Or.inl (fun hmem => h' (by simp [jkeys] at hmem ⊢; exact Or.inr hmem))
      · exact Or.inr h'
    by_cases ha : k' ∈ allowed
    · have hkk : k ≠ k' := by
        rcases hout with h' | h'
        · intro he; exact h' (by simp [jkeys, he])
        · intro he; exact h' (he ▸ ha)
      simp only [updateParams, ha, if_true] at h
      split at h
      · next t' ht' =>
        obtain ⟨w, rfl⟩ := updateOne_shape target k' v' t' ht'
        rw [ih _ allowed d k htail h]
        exact jlookup_jset_ne target k' w k hkk
      · exact absurd h (by simp)
    · simp only [updateParams, ha, if_false] at h
      exact ih target allowed d k htail h

theorem updateParams_lookup_merge :
    ∀ (updates target : JObj) (allowed : List String) (k : String)
      (xs ys : List String) (d : JObj),
      (jkeys updates).Nodup → k ∈ allowed →
      jlookup target k = some (.jarr (xs.map JValue.jstr)) →
      jlookup updates k = some (.jarr (ys.map JValue.jstr)) →
      updateParams target updates allowed = some d →
      jlookup d k = some (.jarr ((sortedSetUnion xs ys).map JValue.jstr)) := by
  intro updates
  induction updates with
  | nil =>
    intro target allowed k xs ys d _ _ _ hu _
    exact absurd hu (by simp [jlookup])
  | cons p rest ih =>
    intro target allowed k xs ys d hnd ha ht hu h
    obtain ⟨k', v'⟩ := p
    have hnd' : k' ∉ jkeys rest ∧ (jkeys rest).Nodup := by
      simpa [jkeys] using hnd
    by_cases hk : k' = k
    · subst hk
      have hv : v' = .jarr (ys.map JValue.jstr) := by
        simpa [jlookup] using hu
      subst hv
      simp only [updateParams, ha, if_true] at h
      rw [updateOne_both target k' (xs.map JValue.jstr) (ys.map JValue.jstr) _ ht
        (pySortedSet_strings xs ys)] at h
      simp only at h
      rw [updateParams_lookup_preserved rest _ allowed d k' (Or.inl hnd'.1) h]
      exact jlookup_jset_self target k' _
    · have hu' : jlookup rest k = some (.jarr (ys.map JValue.jstr)) := by
        simpa [jlookup, hk] using hu
      by_cases ha' : k' ∈ allowed
      · simp only [updateParams, ha', if_true] at h
        split at h
        · next t' ht' =>
          obtain ⟨w, rfl⟩ := updateOne_shape target k' v' t' ht'
          have ht'' : jlookup (jset target k' w) k = some (.jarr (xs.map JValue.jstr)) := by
            rw [jlookup_jset_ne target k' w k (fun he => hk he.symm)]
            exact ht
          exact ih _ allowed k xs ys d hnd'.2 ha ht'' hu' h
        · exact absurd h (by simp)
      · simp only [updateParams, ha', if_false] at h
        exact ih target allowed k xs ys d hnd'.2 ha ht hu' h

theorem updateParams_lookup_overwrite :
    ∀ (updates target : JObj) (allowed : List String) (k : String)
      (v : JValue) (d : JObj),
      (jkeys updates).Nodup → k ∈ allowed →
      jlookup updates k = some v →
      (∀ old new, jlookup target k = some (.jarr old) → v = .jarr new → False) →
      updateParams target updates allowed = some d →
      jlookup d k = some v := by
  intro updates
  induction updates with
  | nil =>
    intro target allowed k v d _ _ hu _ _
    exact absurd hu (by simp [jlookup])
  | cons p rest ih =>
    intro target allowed k v d hnd ha hu hnb h
    obtain ⟨k', v'⟩ := p
    have hnd' : k' ∉ jkeys rest ∧ (jkeys rest).Nodup := by
      simpa [jkeys] using hnd
    by_cases hk : k' = k
    · subst hk
      have hv : v' = v := by simpa [jlookup] using hu
      subst hv
      simp only [updateParams, ha, if_true] at h
      rw [updateOne_not_both target k' v' hnb] at h
      simp only at h
      rw [updateParams_lookup_preserved rest _ allowed d k' (Or.inl hnd'.1) h]
      exact jlookup_jset_self target k' v'
    · have hu' : jlookup rest k = some v := by
        simpa [jlookup, hk] using hu
      by_cases ha' : k' ∈ allowed
      · simp only [updateParams, ha', if_true] at h
        split at h
        · next t' ht' =>
          obtain ⟨w, rfl⟩ := updateOne_shape target k' v' t' ht'
          have hnb' : ∀ old new, jlookup (jset target k' w) k = some (.jarr old) →
              v = .jarr new → False := by
            intro old new hl hv
            rw [jlookup_jset_ne target k' w k (fun he => hk he.symm)] at hl
            exact hnb old new hl hv
          exact ih _ allowed k v d hnd'.2 ha hu' hnb' h
        · exact absurd h (by simp)
      · simp only [updateParams, ha', if_false] at h
        exact ih target allowed k v d hnd'.2 ha hu' hnb h

theorem getParams_inference_scalar (gk ik defaults : JObj) (allowed : List String)
    (k : String) (v : JValue) (d : JObj)
    (hnd : (jkeys ik).Nodup) (ha : k ∈ allowed) (hu : jlookup ik k = some v)
    (hs : v.isArr = false) (h : getParams gk ik defaults allowed = some d) :
    jlookup d k = some v := by
  unfold getParams at h
  split at h
  · next kwargs hkw =>
    refine updateParams_lookup_overwrite ik kwargs allowed k v d hnd ha hu ?_ h
    intro old new _ hv
    rw [hv] at hs
    exact absurd hs (by simp [JValue.isArr])
  · exact absurd h (by simp)

/-! ## Lemmas about the chat templates -/

theorem renderLoop_error_of_misaligned (t : ChatTemplate) (sys : Option String) :
    ∀ (ms : List (ChatRole × String)) (i : Nat),
      (∀ p ∈ ms, p.1 = ChatRole.user ∨ p.1 = ChatRole.assistant) →
      ¬ (∀ j, (h : j < ms.length) → (ms.get ⟨j, h⟩).1 = expectedRole (i + j)) →
      renderLoop t sys ms i = .error alternationMsg := by
  intro ms
  induction ms with
  | nil =>
    intro i _ hnot
    exact absurd (fun j h => absurd h (by simp)) hnot
  | cons p rest ih =>
    intro i hroles hnot
    obtain ⟨r, c⟩ := p
    by_cases hr : r = expectedRole i
    · have hguard : ((r == ChatRole.user) != (i % 2 == 0)) = false := by
        by_cases hi : i % 2 = 0
        · simp [expectedRole, hi] at hr
          simp [hr, hi]
        · simp [expectedRole, hi] at hr
          simp [hr, hi]
      have htail : ¬ (∀ j, (h : j < rest.length) →
          (rest.get ⟨j, h⟩).1 = expectedRole (i + 1 + j)) := by
        intro hall
        apply hnot
        intro j hj
        cases j with
        | zero => simpa using hr
        | succ j' =>
          have hj' : j' < rest.length := by simpa using hj
          have := hall j' hj'
          have harith : i + 1 + j' = i + (j' + 1) := by omega
          simpa [harith] using this
      have hrec := ih (i + 1) (fun p hp => hroles p (List.mem_cons_of_mem _ hp)) htail
      simp [renderLoop, hguard, hrec]
    · have hguard : ((r == ChatRole.user) != (i % 2 == 0)) = true := by
        rcases hroles (r, c) (List.mem_cons_self _ _) with h | h <;>
          simp only at h <;> subst h
        · have : ¬ i % 2 = 0 := by
            intro hi
            exact hr (by simp [expectedRole, hi])
          simp [this]
        · have : i % 2 = 0 := by
            by_contra hi
            exact hr (by simp [expectedRole, hi])
          simp [this]
      simp [renderLoop, hguard]

theorem applyChatTemplate_error (t : ChatTemplate) (ms : List (ChatRole × String))
    (hroles : ∀ p ∈ loopMessages ms, p.1 = ChatRole.user ∨ p.1 = ChatRole.assistant)
    (hviol : ¬ alternatesUserFirst (loopMessages ms)) :
    applyChatTemplate t ms = .error alternationMsg := by
  unfold applyChatTemplate
  rw [renderLoop_error_of_misaligned t (systemMessage ms) (loopMessages ms) 0 hroles
    (by simpa [alternatesUserFirst] using hviol)]

/-! ## Lemmas about the Anthropic response content loops -/

theorem collectToolUse_eq (meta : JObj) :
    ∀ objs : List JObj,
      collectToolUse meta (objs.map JValue.jobj) =
        .ok ((objs.filter fun b => isStrV (jlookup b "type") "tool_use").map
          fun b => ChatMessage.fromAssistant (JValue.dumps (.jobj b)) meta) := by
  intro objs
  induction objs with
  | nil => rfl
  | cons b rest ih =>
    by_cases h : isStrV (jlookup b "type") "tool_use" = true
    · simp [collectToolUse, h, ih, List.filter_cons]
    · simp only [Bool.not_eq_true] at h
      simp [collectToolUse, h, ih, List.filter_cons]

theorem collectText_eq (meta : JObj) :
    ∀ objs : List JObj,
      (∀ b ∈ objs, isStrV (jlookup b "type") "text" = true →
        ∃ s, jlookup b "text" = some (.jstr s)) →
      collectText meta (objs.map JValue.jobj) =
        .ok (objs.filterMap fun b =>
          if isStrV (jlookup b "type") "text" = true then
            match jlookup b "text" with
            | some (.jstr s) => some (ChatMessage.fromAssistant s meta)
            | _ => none
          else none) := by
  intro objs
  induction objs with
  | nil => intro _; rfl
  | cons b rest ih =>
    intro htext
    have ihr := ih (fun b' hb' => htext b' (List.mem_cons_of_mem _ hb'))
    by_cases h : isStrV (jlookup b "type") "text" = true
    · obtain ⟨s, hs⟩ := htext b (List.mem_cons_self _ _) h
      simp [collectText, h, hs, ihr, List.filterMap_cons]
    · simp only [Bool.not_eq_true] at h
      simp [collectText, h, ihr, List.filterMap_cons]

/-! ## Shape of the Anthropic prepared chat messages -/

theorem anthropicPrepareChatMessages_shape (cfg : AdapterCfg) (messages : List ChatMessage) :
    anthropicPrepareChatMessages cfg messages =
      [("messages", .jarr (anthMsgsArr cfg messages))] ∨
    ∃ m, messages.head? = some m ∧ m.role = ChatRole.system ∧ ¬ m.content = "" ∧
      anthropicPrepareChatMessages cfg messages =
        [("messages", .jarr (anthMsgsArr cfg messages)), ("system", .jstr m.content)] := by
  unfold anthropicPrepareChatMessages anthMsgsArr
  cases messages with
  | nil =>
    cases htr : cfg.truncate
    · left; simp [jset]
    · left; simp [jset, truncateBodyEntry]
  | cons m rest =>
    by_cases hrole : m.role = ChatRole.system
    · by_cases hempty : m.content = ""
      · cases htr : cfg.truncate
        · left; simp [jset, hrole, hempty]
        · left; simp [jset, hrole, hempty, truncateBodyEntry]
      · right
        refine ⟨m, rfl, hrole, hempty, ?_⟩
        cases htr : cfg.truncate
        · simp [jset, hrole, hempty]
        · simp [jset, hrole, hempty, truncateBodyEntry]
    · cases htr : cfg.truncate
      · left; simp [jset, hrole]
      · left; simp [jset, hrole, truncateBodyEntry]

/-! ## The claims -/

/-- Claim C1, counterexample: the claim says every adapter family returns
an empty message list, never raising, on an empty or degenerate response.
The Meta-Llama2 adapter's `_extract_messages_from_response` instead indexes
`response_body["generation"]`, so on the empty response it raises a
`KeyError` and in particular does not return the empty list. -/
theorem claim1_counterexample :
    metaLlama2Extract [] = .error "KeyError: generation" ∧
    metaLlama2Extract [] ≠ .ok [] :=
  ⟨rfl, by simp [metaLlama2Extract, jlookup]⟩

/-- Claim C1, amended: the Anthropic adapter returns the empty list on any
response whose `type` is not `"message"`, and the Mistral adapter on any
response lacking `outputs`; the Meta-Llama2 adapter raises a `KeyError` on
any response lacking `generation` instead of returning an empty list. -/
theorem claim1_amended :
    ∀ rb : JObj,
      (isStrV (jlookup rb "type") "message" = false → anthropicExtract rb = .ok []) ∧
      (jlookup rb "outputs" = none → mistralExtract rb = .ok []) ∧
      (jlookup rb "generation" = none →
        metaLlama2Extract rb = .error "KeyError: generation") := by
  intro rb
  refine ⟨fun h => ?_, fun h => ?_, fun h => ?_⟩
  · simp [anthropicExtract, h]
  · unfold mistralExtract
    rw [h]
  · unfold metaLlama2Extract
    rw [h]

/-- Claim C1, witness: the amended claim evaluated on the empty response
for Anthropic and Mistral, and on a `generation`-free response for
Meta-Llama2. -/
theorem claim1_witness :
    anthropicExtract [] = .ok [] ∧ mistralExtract [] = .ok [] ∧
      metaLlama2Extract [("other", .jstr "x")] = .error "KeyError: generation" :=
  ⟨(claim1_amended []).1 rfl, (claim1_amended []).2.1 rfl,
   (claim1_amended [("other", .jstr "x")]).2.2 rfl⟩

/-- Claim C2: for every finite event stream, `get_stream_responses` passes
the callback exactly one `StreamingChunk` per payload-carrying fragment, in
arrival order, and returns exactly one `ChatMessage` whose content is the
concatenation of all chunk texts with the leading whitespace stripped once
(at the front of the concatenation) and whose meta is the last decoded
payload; in particular three payload fragments of which only the second
carries the non-empty text `"foo"` give three in-order callback invocations
and the final content `"foo"`. -/
theorem claim2_stream_aggregation :
    ∀ (build : JObj → StreamingChunk) (stream : List (Option JObj)),
      (getStreamResponses build stream).2 = (stream.filterMap id).map build ∧
      (getStreamResponses build stream).1 =
        [ChatMessage.fromAssistant
          (pyLstrip (String.join (((stream.filterMap id).map build).map StreamingChunk.content)))
          ((stream.filterMap id).getLastD [])] ∧
      getStreamResponses anthropicBuildChunk
          [some demoFrag1, some demoFrag2, some demoFrag3] =
        ([ChatMessage.fromAssistant "foo" demoFrag3],
         [⟨"", demoFrag1⟩, ⟨"foo", demoFrag2⟩, ⟨"", demoFrag3⟩]) := by
  intro build stream
  refine ⟨?_, ?_, rfl⟩
  · simp [getStreamResponses, streamFold_eq]
  · simp [getStreamResponses, streamFold_eq]

/-- Claim C10: `get_stream_responses` always returns a list of exactly one
message; on a stream with no payload-carrying fragments it returns one
assistant message with empty content and empty meta and the callback is
never invoked. -/
theorem claim10_stream_single_message :
    ∀ (build : JObj → StreamingChunk) (stream : List (Option JObj)),
      (getStreamResponses build stream).1.length = 1 ∧
      (stream.filterMap id = [] →
        getStreamResponses build stream = ([ChatMessage.fromAssistant "" []], [])) := by
  intro build stream
  constructor
  · simp [getStreamResponses]
  · intro h
    simp [getStreamResponses, streamFold_eq, h]
    rfl

/-- Claim C10, witness: a one-fragment stream without a payload. -/
theorem claim10_witness :
    getStreamResponses anthropicBuildChunk [none] =
      ([ChatMessage.fromAssistant "" []], []) :=
  (claim10_stream_single_message anthropicBuildChunk [none]).2 rfl

/-- Claim C3: `check_prompt` leaves a prompt unchanged whenever
`prompt_length + max_length <= model_max_length`, reports
`new_prompt_length = model_max_length - max_length` whenever
`prompt_length + max_length > model_max_length`, and never reports a
resized length above the original (spec-modelled: `DefaultPromptHandler`
is not under `src/`). -/
theorem claim3_check_prompt :
    ∀ (h : PromptHandler) (prompt : String),
      ((checkPrompt h prompt).prompt_length + h.max_length ≤ h.model_max_length →
        (checkPrompt h prompt).resized_prompt = prompt) ∧
      (h.model_max_length < (checkPrompt h prompt).prompt_length + h.max_length →
        (checkPrompt h prompt).new_prompt_length =
          h.model_max_length - h.max_length) ∧
      (checkPrompt h prompt).new_prompt_length ≤ (checkPrompt h prompt).prompt_length := by
  intro h prompt
  refine ⟨fun hle => ?_, fun hgt => ?_, ?_⟩
  · have hmin : ¬ min (h.encode prompt).length (h.model_max_length - h.max_length)
        < (h.encode prompt).length := by
      simp only [checkPrompt] at hle
      omega
    simp [checkPrompt, hmin]
  · simp only [checkPrompt] at hgt ⊢
    omega
  · simp only [checkPrompt]
    omega

/-- Claim C3, witness: with a one-token-per-character tokenizer, budget 3
and window 5, the two-character prompt is returned unchanged and the
three-character prompt is truncated to 5 - 3 tokens. -/
theorem claim3_witness :
    (checkPrompt demoHandler "ab").resized_prompt = "ab" ∧
    (checkPrompt demoHandler "abc").new_prompt_length =
      demoHandler.model_max_length - demoHandler.max_length :=
  ⟨(claim3_check_prompt demoHandler "ab").1 (by decide),
   (claim3_check_prompt demoHandler "abc").2.1 (by decide)⟩

/-- Claim C7: the Anthropic adapter with default generation kwargs and
truncation disabled maps `[system("You are helpful"), user("Hi")]` with no
inference kwargs to exactly the documented body (field order of the
association list is the construction order; as a dict it is the claimed
body). -/
theorem claim7_anthropic_prepare_body :
    anthropicPrepareBody demoCfg
      [⟨.system, "You are helpful", []⟩, ⟨.user, "Hi", []⟩] [] =
      .ok [("messages", .jarr [.jobj [("content", .jarr [.jobj [("type", .jstr "text"),
              ("text", .jstr "Hi")]]), ("role", .jstr "user")]]),
           ("system", .jstr "You are helpful"),
           ("anthropic_version", .jstr "bedrock-2023-05-31"),
           ("max_tokens", .jnum 512)] := rfl

/-- Claim C4, counterexample: the claim says that for every pair of
parameter maps and every allowed list no key outside the allowed list ever
appears in the merged result.  The merger only filters the updates map: a
disallowed key already present in the target (here, in the defaults fed to
`_get_params`) survives into the result. -/
theorem claim4_counterexample :
    getParams [] [] [("bad_param", .jnum 1)] [] = some [("bad_param", .jnum 1)] ∧
    updateParams [("bad_param", .jnum 1)] [] [] = some [("bad_param", .jnum 1)] ∧
    "bad_param" ∈ jkeys [("bad_param", .jnum 1)] ∧
    "bad_param" ∉ ([] : List String) :=
  ⟨rfl, rfl, by decide, by decide⟩

/-- Claim C4, amended: keys of the updates map outside the allowed list are
dropped and never merged (at such keys the result equals the target
unchanged), and every key of the merged result is either a key of the
target map or an allowed key; a disallowed key already present in the
target persists. -/
theorem claim4_amended :
    ∀ (target updates : JObj) (allowed : List String) (d : JObj),
      updateParams target updates allowed = some d →
      (∀ k, k ∈ jkeys d → k ∈ jkeys target ∨ k ∈ allowed) ∧
      (∀ k, k ∉ allowed → jlookup d k = jlookup target k) := by
  intro t u a d h
  exact ⟨fun k hk => updateParams_keys u t a d h k hk,
         fun k hk => updateParams_lookup_preserved u t a d k (Or.inr hk) h⟩

/-- Claim C4, witness: target `temperature`, updates `bad_param` and
`top_p`, allowed `temperature` and `top_p`. -/
theorem claim4_witness :
    ("top_p" ∈ jkeys [("temperature", JValue.jnum 1)] ∨
      "top_p" ∈ ["temperature", "top_p"]) ∧
    jlookup [("temperature", JValue.jnum 1), ("top_p", JValue.jnum 3)] "bad_param" =
      jlookup [("temperature", JValue.jnum 1)] "bad_param" := by
  have h := claim4_amended [("temperature", JValue.jnum 1)]
    [("bad_param", JValue.jnum 2), ("top_p", JValue.jnum 3)] ["temperature", "top_p"]
    [("temperature", JValue.jnum 1), ("top_p", JValue.jnum 3)] rfl
  exact ⟨h.1 "top_p" (by decide), h.2 "bad_param" (by decide)⟩

/-- Claim C5: an allowed key carried as a (string) list in both the target
and the updates merges to the sorted duplicate-free union of the two lists;
in every other case the update value overwrites the target value, and in
particular a scalar in the last-merged per-call inference kwargs wins in
`_get_params`. -/
theorem claim5_list_union_and_overwrite :
    (∀ (target updates : JObj) (allowed : List String) (k : String)
        (xs ys : List String) (d : JObj),
      (jkeys updates).Nodup → k ∈ allowed →
      jlookup target k = some (.jarr (xs.map JValue.jstr)) →
      jlookup updates k = some (.jarr (ys.map JValue.jstr)) →
      updateParams target updates allowed = some d →
      jlookup d k = some (.jarr ((sortedSetUnion xs ys).map JValue.jstr)) ∧
        (sortedSetUnion xs ys).Pairwise (· < ·) ∧
        (∀ s, s ∈ sortedSetUnion xs ys ↔ s ∈ xs ∨ s ∈ ys)) ∧
    (∀ (target updates : JObj) (allowed : List String) (k : String)
        (v : JValue) (d : JObj),
      (jkeys updates).Nodup → k ∈ allowed →
      jlookup updates k = some v →
      (∀ old new, jlookup target k = some (.jarr old) → v = .jarr new → False) →
      updateParams target updates allowed = some d →
      jlookup d k = some v) ∧
    (∀ (gk ik defaults : JObj) (allowed : List String) (k : String)
        (v : JValue) (d : JObj),
      (jkeys ik).Nodup → k ∈ allowed → jlookup ik k = some v → v.isArr = false →
      getParams gk ik defaults allowed = some d →
      jlookup d k = some v) := by
  refine ⟨?_, ?_, ?_⟩
  · intro t u a k xs ys d hnd ha ht hu h
    exact ⟨updateParams_lookup_merge u t a k xs ys d hnd ha ht hu h,
           sortedSetUnion_pairwise xs ys, fun s => sortedSetUnion_mem xs ys s⟩
  · intro t u a k v d hnd ha hu hnb h
    exact updateParams_lookup_overwrite u t a k v d hnd ha hu hnb h
  · intro gk ik defs a k v d hnd ha hu hs h
    exact getParams_inference_scalar gk ik defs a k v d hnd ha hu hs h

/-- Claim C5, witness: two stop-sequence lists merge to their sorted
duplicate-free union, and a scalar conflict is won by the later source. -/
theorem claim5_witness :
    jlookup [("stop_sequences", JValue.jarr (["a", "b", "c"].map JValue.jstr))]
        "stop_sequences" =
      some (.jarr ((sortedSetUnion ["b", "a"] ["a", "c"]).map JValue.jstr)) ∧
    jlookup [("temperature", JValue.jnum 2)] "temperature" = some (JValue.jnum 2) ∧
    jlookup [("temperature", JValue.jnum 7)] "temperature" = some (JValue.jnum 7) :=
  ⟨(claim5_list_union_and_overwrite.1
      [("stop_sequences", JValue.jarr (["b", "a"].map JValue.jstr))]
      [("stop_sequences", JValue.jarr (["a", "c"].map JValue.jstr))]
      ["stop_sequences"] "stop_sequences" ["b", "a"] ["a", "c"]
      [("stop_sequences", JValue.jarr (["a", "b", "c"].map JValue.jstr))]
      (by decide) (by decide) rfl rfl rfl).1,
   claim5_list_union_and_overwrite.2.1
      [("temperature", JValue.jnum 1)] [("temperature", JValue.jnum 2)]
      ["temperature"] "temperature" (JValue.jnum 2)
      [("temperature", JValue.jnum 2)]
      (by decide) (by decide) rfl
      (by intro old new hl hv; simp [jlookup] at hl) rfl,
   claim5_list_union_and_overwrite.2.2
      [] [("temperature", JValue.jnum 7)] [("temperature", JValue.jnum 1)]
      ["temperature"] "temperature" (JValue.jnum 7)
      [("temperature", JValue.jnum 7)]
      (by decide) (by decide) rfl rfl rfl⟩

/-- Claim C6, counterexample: the claim says every message list violating
strict user/assistant alternation (after an optional leading system
message) makes `prepare_body` raise.  `[user("a"), system("s")]` violates
the alternation (position 1 should be an assistant turn), yet both
templates silently drop the system turn and `prepare_body` returns a
body. -/
theorem claim6_counterexample :
    (¬ alternatesUserFirst (loopMessages (demoUserSystem.map toRoleContent))) ∧
    mistralPrepareBody demoCfg demoUserSystem [] =
      .ok [("prompt", .jstr "<s>[INST] a [/INST]"), ("max_tokens", .jnum 512)] ∧
    metaLlama2PrepareBody demoCfg demoUserSystem [] =
      .ok [("prompt", .jstr "<s>[INST] a [/INST]"), ("max_gen_len", .jnum 512)] := by
  refine ⟨?_, rfl, rfl⟩
  intro hall
  have h := hall 1 (by simp [demoUserSystem, toRoleContent, loopMessages])
  simp [demoUserSystem, toRoleContent, loopMessages, expectedRole] at h

/-- Claim C6, amended: for message lists whose loop messages (after an
optional leading system message) consist solely of user and assistant
turns, any violation of strict user-first alternation makes `prepare_body`
of both the Mistral and the Meta-Llama2 adapter raise the formatting error
before any body is returned; a message of another role at a position the
check does not flag is silently dropped instead. -/
theorem claim6_amended :
    ∀ (messages : List ChatMessage),
      (∀ p ∈ loopMessages (messages.map toRoleContent),
        p.1 = ChatRole.user ∨ p.1 = ChatRole.assistant) →
      ¬ alternatesUserFirst (loopMessages (messages.map toRoleContent)) →
      mistralPrepareBody demoCfg messages [] = .error alternationMsg ∧
      metaLlama2PrepareBody demoCfg messages [] = .error alternationMsg := by
  intro msgs hroles hviol
  have hm := applyChatTemplate_error mistralTemplate (msgs.map toRoleContent) hroles hviol
  have hl := applyChatTemplate_error metaLlama2Template (msgs.map toRoleContent) hroles hviol
  constructor
  · simp [mistralPrepareBody, mistralPrepareChatMessages, hm, demoCfg, jlookup, jerase,
      getParams, updateParams, JValue.truthy]
  · simp [metaLlama2PrepareBody, metaLlama2PrepareChatMessages, hl, demoCfg,
      getParams, updateParams]

/-- Claim C6, witness: two consecutive user messages trip the alternation
check of both adapters. -/
theorem claim6_witness :
    mistralPrepareBody demoCfg demoUserUser [] = .error alternationMsg ∧
    metaLlama2PrepareBody demoCfg demoUserUser [] = .error alternationMsg :=
  claim6_amended demoUserUser (by decide)
    (by
      intro hall
      have h := hall 1 (by decide)
      simp [demoUserUser, toRoleContent, loopMessages, expectedRole] at h)

/-- Claim C8: an Anthropic response of type `message` with stop reason
`tool_use` yields one message per `tool_use` content block, each message's
content the JSON serialization of the block and its meta all top-level
fields except `type`, `content` and `role`; for any other stop reason one
message is emitted per text content block. -/
theorem claim8_anthropic_tool_use :
    ∀ (rb : JObj) (objs : List JObj),
      isStrV (jlookup rb "type") "message" = true →
      jlookup rb "content" = some (.jarr (objs.map JValue.jobj)) →
      (isStrV (jlookup rb "stop_reason") "tool_use" = true →
        anthropicExtract rb =
          .ok ((objs.filter fun b => isStrV (jlookup b "type") "tool_use").map
            fun b => ChatMessage.fromAssistant (JValue.dumps (.jobj b))
              (anthropicMeta rb))) ∧
      (isStrV (jlookup rb "stop_reason") "tool_use" = false →
        (∀ b ∈ objs, isStrV (jlookup b "type") "text" = true →
          ∃ s, jlookup b "text" = some (.jstr s)) →
        anthropicExtract rb =
          .ok (objs.filterMap fun b =>
            if isStrV (jlookup b "type") "text" = true then
              match jlookup b "text" with
              | some (.jstr s) => some (ChatMessage.fromAssistant s (anthropicMeta rb))
              | _ => none
            else none)) := by
  intro rb objs hty hc
  constructor
  · intro hsr
    simp [anthropicExtract, hty, hc, hsr, collectToolUse_eq]
  · intro hsr htext
    simp [anthropicExtract, hty, hc, hsr, collectText_eq (anthropicMeta rb) objs htext]

/-- Claim C8, witness: a response with exactly one `tool_use` content block
yields exactly one message, its content the serialized block. -/
theorem claim8_witness :
    anthropicExtract demoToolResponse =
      .ok [ChatMessage.fromAssistant (JValue.dumps (.jobj demoToolBlock))
        (anthropicMeta demoToolResponse)] :=
  (claim8_anthropic_tool_use demoToolResponse [demoToolBlock] rfl rfl).1 rfl

/-- Claim C9: the Anthropic `prepare_chat_messages` puts exactly the USER
and ASSISTANT messages (converted, truncated when enabled) into the
`messages` array; the `system` field can only come from a SYSTEM message in
first position; and no other key exists, so a SYSTEM message at a later
position is omitted from the body entirely. -/
theorem claim9_anthropic_system_handling :
    ∀ (cfg : AdapterCfg) (messages : List ChatMessage),
      jlookup (anthropicPrepareChatMessages cfg messages) "messages" =
        some (.jarr (anthMsgsArr cfg messages)) ∧
      (∀ v, jlookup (anthropicPrepareChatMessages cfg messages) "system" = some v →
        ∃ m, messages.head? = some m ∧ m.role = ChatRole.system ∧
          v = .jstr m.content) ∧
      (∀ k, k ∈ jkeys (anthropicPrepareChatMessages cfg messages) →
        k = "messages" ∨ k = "system") := by
  intro cfg messages
  rcases anthropicPrepareChatMessages_shape cfg messages with h | ⟨m, hm, hrole, _, h⟩
  · refine ⟨?_, ?_, ?_⟩
    · rw [h]; simp [jlookup]
    · intro v hv
      rw [h] at hv
      simp [jlookup] at hv
    · intro k hk
      rw [h] at hk
      simp [jkeys] at hk
      exact Or.inl hk
  · refine ⟨?_, ?_, ?_⟩
    · rw [h]; simp [jlookup]
    · intro v hv
      rw [h] at hv
      simp [jlookup] at hv
      exact ⟨m, hm, hrole, hv.symm⟩
    · intro k hk
      rw [h] at hk
      simp [jkeys] at hk
      exact hk

/-- Claim C9, witness: a leading system message, a user message, and a late
system message: the body's `system` field comes from the head, and the
late system message is nowhere. -/
theorem claim9_witness :
    jlookup (anthropicPrepareChatMessages demoCfg demoSystemMsgs) "messages" =
      some (.jarr (anthMsgsArr demoCfg demoSystemMsgs)) ∧
    ∃ m, demoSystemMsgs.head? = some m ∧ m.role = ChatRole.system ∧
      JValue.jstr "be brief" = .jstr m.content :=
  ⟨(claim9_anthropic_system_handling demoCfg demoSystemMsgs).1,
   (claim9_anthropic_system_handling demoCfg demoSystemMsgs).2.1 (.jstr "be brief") rfl⟩

end Bedrock
